import Mathlib

/-!
# Verification of the `cfor!` macro (huonw/cfor)

This file gives a shallow embedding of the `cfor!` macro from
`src/lib.rs` and proves the specification's claims about it.

The macro has four arms:

```
(; $($rest: tt)*)                              => cfor!((); $($rest)*)
($init: stmt; ; $($rest: tt)*)                 => cfor!($init; !false; $($rest)*)
($init: stmt; $cond: expr; ; $body: block)     => cfor!{$init; $cond; (); $body}
($init: stmt; $cond: expr; $step: expr; $body: block) =>
    {
        $init;
        while $cond {
            let mut _first = true;
            let mut _continue = false;
            loop {
                if !_first { _continue = true; break }
                _first = false;
                $body
            }
            if !_continue { break }
            $step
        }
    }
```

We embed the expanded code over an abstract state type `σ`:

* the body of the loop is a function `σ → σ × Flow` where `Flow`
  records how the block exited (fell through, `continue`, or `break`);
* the initialiser and step are state transformers `σ → σ`;
* the condition is a predicate `σ → Bool`;
* the `loop { ... }` and `while ... { ... }` constructs are embedded as
  fuel-indexed recursive functions returning `Option σ`
  (`none` = the fuel ran out, i.e. the loop did not terminate within
  `fuel` iterations).
-/

namespace CFor

/-- How a single execution of the loop body block exits:
falling through normally, via `continue`, or via `break`. -/
inductive Flow : Type
  | normal : Flow
  | cont : Flow
  | brk : Flow
deriving DecidableEq, Repr

/-- The inner `loop { ... }` of the expansion, parameterised by the
current values of the mutable flags `_first` and `_continue`.  It
follows the source line by line:

```
loop {
    if !_first { _continue = true; break }
    _first = false;
    $body
}
```

A body `break` breaks out of this inner loop (leaving `_continue` as it
is); a body `continue` or normal fall-through re-enters the inner loop.
The result is the state together with the value of `_continue` when the
inner loop exits.  `fuel` bounds the number of inner iterations;
`fuel = 2` always suffices (proved below). -/
def innerLoop {σ : Type} (body : σ → σ × Flow) :
    Nat → Bool → Bool → σ → Option (σ × Bool)
  | 0, _, _, _ => none
  | fuel + 1, first, cflag, s =>
    if !first then some (s, true)
    else
      match body s with
      | (s', Flow.brk) => some (s', cflag)
      | (s', _) => innerLoop body fuel false cflag s'

/-- The outer `while $cond { ... }` of the expansion.  Each outer
iteration declares the flags `_first := true` and `_continue := false`
afresh, runs the inner loop, propagates the `break` when `_continue` is
still false, and otherwise runs `$step` and re-evaluates the condition.
`fuel` bounds the number of outer iterations. -/
def cforWhile {σ : Type} (cond : σ → Bool) (step : σ → σ)
    (body : σ → σ × Flow) : Nat → σ → Option σ
  | 0, _ => none
  | fuel + 1, s =>
    if cond s then
      match innerLoop body 2 true false s with
      | none => none
      | some (s', c) =>
        if !c then some s'
        else cforWhile cond step body fuel (step s')
    else some s

/-- The fully expanded construct (fourth macro arm):
`$init;` followed by the while loop. -/
def cforRun {σ : Type} (init : σ → σ) (cond : σ → Bool) (step : σ → σ)
    (body : σ → σ × Flow) (fuel : Nat) (s : σ) : Option σ :=
  cforWhile cond step body fuel (init s)

/-- A surface invocation of `cfor!`.  The grammar always has the three
clause separators; a clause is `none` when nothing stands between its
separators.  `body` is `none` when no block follows the third
separator (in which case no macro arm matches). -/
structure Invocation (σ : Type) where
  init : Option (σ → σ)
  cond : Option (σ → Bool)
  step : Option (σ → σ)
  body : Option (σ → σ × Flow)

/-- The core loop the macro's dispatch arms reduce an invocation to:
all three header clauses filled in. -/
structure CoreLoop (σ : Type) where
  init : σ → σ
  cond : σ → Bool
  step : σ → σ
  body : σ → σ × Flow

/-- The macro's clause-omission dispatch (the first three arms):
an empty initialiser becomes `()`, an empty condition becomes `!false`,
an empty step becomes `()`.  When no body block is present no arm
matches and the expansion fails (`none`). -/
def macroExpand {σ : Type} (inv : Invocation σ) : Option (CoreLoop σ) :=
  match inv.body with
  | none => none
  | some b =>
    some { init := inv.init.getD (fun s => s)
           cond := inv.cond.getD (fun _ => !false)
           step := inv.step.getD (fun s => s)
           body := b }

/-- Running a surface invocation: expand, then run the expansion. -/
def cforInvoke {σ : Type} (inv : Invocation σ) (fuel : Nat) (s : σ) :
    Option (Option σ) :=
  (macroExpand inv).map (fun c => cforRun c.init c.cond c.step c.body fuel s)

/-- A plain `while $cond $body` loop of the host language, in which a
body `continue` re-evaluates the condition directly and a body `break`
exits the loop.  Used to compare a step-less `cfor!` with a plain
while loop. -/
def plainWhile {σ : Type} (cond : σ → Bool) (body : σ → σ × Flow) :
    Nat → σ → Option σ
  | 0, _ => none
  | fuel + 1, s =>
    if cond s then
      match body s with
      | (s', Flow.brk) => some s'
      | (s', _) => plainWhile cond body fuel s'
    else some s

end CFor

namespace CFor

/-- The inner single-shot loop, entered with `_first = true` and
`_continue = false` as in the expansion, runs the body exactly once and
exits with `_continue = true` exactly when the body did not `break`. -/
theorem innerLoop_spec {σ : Type} (body : σ → σ × Flow) (s : σ) :
    innerLoop body 2 true false s
      = some ((body s).1, decide ((body s).2 ≠ Flow.brk)) := by
  rcases h : body s with ⟨s', f⟩
  cases f <;> simp [innerLoop, h]

/-- Unfolding the outer loop when the condition is false: the loop
terminates normally without touching the body or the step. -/
theorem cforWhile_cond_false {σ : Type} (cond : σ → Bool) (step : σ → σ)
    (body : σ → σ × Flow) (fuel : Nat) (s : σ) (hc : cond s = false) :
    cforWhile cond step body (fuel + 1) s = some s := by
  simp [cforWhile, hc]

/-- Unfolding the outer loop on an iteration whose body breaks: the
whole construct terminates at once with the state the body left,
without executing the step. -/
theorem cforWhile_break {σ : Type} (cond : σ → Bool) (step : σ → σ)
    (body : σ → σ × Flow) (fuel : Nat) (s : σ) (hc : cond s = true)
    (hb : (body s).2 = Flow.brk) :
    cforWhile cond step body (fuel + 1) s = some (body s).1 := by
  simp [cforWhile, hc, innerLoop_spec, hb]

/-- Unfolding the outer loop on an iteration whose body falls through
or continues: the step runs on the state the body left, and only then
is the condition re-evaluated. -/
theorem cforWhile_advance {σ : Type} (cond : σ → Bool) (step : σ → σ)
    (body : σ → σ × Flow) (fuel : Nat) (s : σ) (hc : cond s = true)
    (hb : (body s).2 ≠ Flow.brk) :
    cforWhile cond step body (fuel + 1) s
      = cforWhile cond step body fuel (step (body s).1) := by
  simp [cforWhile, hc, innerLoop_spec, hb]

end CFor

namespace CFor

/-- C1: for every loop with a step clause, on every iteration in which
the body executes `continue` (and does not `break`), control transfers
to the step clause and the step is executed before the condition is
re-evaluated; in particular the loop `i = 0; i < 10; i += 1` whose body
continues when `i == 4` terminates with `i == 10` rather than looping
forever. -/
theorem claim1_step_on_continue {σ : Type} (cond : σ → Bool)
    (step : σ → σ) (body : σ → σ × Flow) (fuel : Nat) (s : σ)
    (hc : cond s = true) (hf : (body s).2 = Flow.cont) :
    cforWhile cond step body (fuel + 1) s
      = cforWhile cond step body fuel (step (body s).1) ∧
    cforRun (fun _ => (0 : Nat)) (fun i => decide (i < 10))
      (fun i => i + 1)
      (fun i => (i, if i = 4 then Flow.cont else Flow.normal))
      11 0 = some 10 := by
  refine ⟨cforWhile_advance cond step body fuel s hc ?_, by decide⟩
  rw [hf]
  intro h
  exact Flow.noConfusion h

/-- C1 witness: the general part of `claim1_step_on_continue`
instantiated at a concrete iteration whose body continues. -/
theorem claim1_witness :
    cforWhile (fun i => decide (i < 10)) (fun i => i + 1)
      (fun i => (i, if i = 4 then Flow.cont else Flow.normal)) 7 4
      = cforWhile (fun i => decide (i < 10)) (fun i => i + 1)
          (fun i => (i, if i = 4 then Flow.cont else Flow.normal)) 6 5 ∧
    cforRun (fun _ => (0 : Nat)) (fun i => decide (i < 10))
      (fun i => i + 1)
      (fun i => (i, if i = 4 then Flow.cont else Flow.normal))
      11 0 = some 10 :=
  claim1_step_on_continue (fun i => decide (i < 10)) (fun i => i + 1)
    (fun i => (i, if i = 4 then Flow.cont else Flow.normal)) 6 4
    (by decide) (by decide)

/-- C2: on an iteration in which the body executes `break`, the loop
terminates immediately with the state the body left and the step clause
is not executed on that iteration; a step that increments a counter
shows zero executions when the body unconditionally breaks on the
first iteration. -/
theorem claim2_step_skipped_on_break {σ : Type} (cond : σ → Bool)
    (step : σ → σ) (body : σ → σ × Flow) (fuel : Nat) (s : σ)
    (hc : cond s = true) (hb : (body s).2 = Flow.brk) :
    cforWhile cond step body (fuel + 1) s = some (body s).1 ∧
    cforRun (fun n => n) (fun _ => true) (fun n => n + 1)
      (fun n => (n, Flow.brk)) 5 (0 : Nat) = some 0 :=
  ⟨cforWhile_break cond step body fuel s hc hb, by decide⟩

/-- C2 witness: `claim2_step_skipped_on_break` at a concrete breaking
iteration. -/
theorem claim2_witness :
    cforWhile (fun _ => true) (fun n => n + 1)
      (fun n => (n, Flow.brk)) 5 (0 : Nat) = some 0 ∧
    cforRun (fun n => n) (fun _ => true) (fun n => n + 1)
      (fun n => (n, Flow.brk)) 5 (0 : Nat) = some 0 :=
  claim2_step_skipped_on_break (fun _ => true) (fun n => n + 1)
    (fun n => (n, Flow.brk)) 4 0 (by decide) (by decide)

/-- C3: the initialiser executes exactly once, before the first
evaluation of the condition, regardless of the iteration count and of
which clauses are omitted: running the construct is running the while
loop on `init s`; an initialiser that increments a counter leaves the
counter at exactly 1 both when the condition is false immediately and
when three iterations run; and for any surface invocation with a body,
the expansion applies the (defaulted) initialiser once, outside the
while loop. -/
theorem claim3_initializer_runs_once {σ : Type} (init : σ → σ)
    (cond : σ → Bool) (step : σ → σ) (body : σ → σ × Flow)
    (fuel : Nat) (s : σ) (inv : Invocation σ) (b : σ → σ × Flow)
    (hb : inv.body = some b) :
    cforRun init cond step body fuel s
      = cforWhile cond step body fuel (init s) ∧
    cforInvoke inv fuel s
      = some (cforWhile (inv.cond.getD (fun _ => !false))
          (inv.step.getD (fun x => x)) b fuel
          ((inv.init.getD (fun x => x)) s)) ∧
    cforRun (fun n : Nat => n + 1) (fun _ => false) (fun n => n)
      (fun n => (n, Flow.normal)) 1 0 = some 1 ∧
    cforRun (fun p : Nat × Nat => (p.1 + 1, p.2))
      (fun p => decide (p.2 < 3)) (fun p => (p.1, p.2 + 1))
      (fun p => (p, Flow.normal)) 4 (0, 0) = some (1, 3) := by
  refine ⟨rfl, ?_, by decide, by decide⟩
  simp [cforInvoke, macroExpand, hb, cforRun]

/-- C3 witness: `claim3_initializer_runs_once` at a concrete
invocation whose initialiser clause is omitted. -/
theorem claim3_witness :
    cforRun (fun n : Nat => n) (fun _ => false) (fun n => n)
      (fun n => (n, Flow.normal)) 1 0
      = cforWhile (fun _ => false) (fun n => n)
          (fun n => (n, Flow.normal)) 1 0 ∧
    cforInvoke
      (⟨none, some (fun _ => false), some (fun n => n),
        some (fun n => (n, Flow.normal))⟩ : Invocation Nat) 1 0
      = some (cforWhile (fun _ => false) (fun n => n)
          (fun n => (n, Flow.normal)) 1 0) ∧
    cforRun (fun n : Nat => n + 1) (fun _ => false) (fun n => n)
      (fun n => (n, Flow.normal)) 1 0 = some 1 ∧
    cforRun (fun p : Nat × Nat => (p.1 + 1, p.2))
      (fun p => decide (p.2 < 3)) (fun p => (p.1, p.2 + 1))
      (fun p => (p, Flow.normal)) 4 (0, 0) = some (1, 3) :=
  claim3_initializer_runs_once (fun n : Nat => n) (fun _ => false)
    (fun n => n) (fun n => (n, Flow.normal)) 1 0
    ⟨none, some (fun _ => false), some (fun n => n),
      some (fun n => (n, Flow.normal))⟩
    (fun n => (n, Flow.normal)) rfl

end CFor

namespace CFor

/-- C4 counterexample: the invocation `; false; ; { ... }` from the
`missing_parts` test has a present-but-empty step clause, yet the
macro's third arm accepts it: expansion does not fail. -/
theorem claim4_counterexample :
    (macroExpand
      (⟨none, some (fun _ => false), none,
        some (fun s => (s, Flow.normal))⟩ : Invocation Nat)).isSome
      = true :=
  rfl

/-- C4 (amended): expansion succeeds whenever a body block is present,
even when the step clause is present but empty — the empty step clause
expands to the no-op step `()` rather than being rejected; expansion
fails only when the body is missing. -/
theorem claim4_empty_step_accepted {σ : Type} (init : Option (σ → σ))
    (cond : Option (σ → Bool)) (st : Option (σ → σ))
    (b : σ → σ × Flow) :
    macroExpand (⟨init, cond, none, some b⟩ : Invocation σ)
      = some ⟨init.getD (fun s => s), cond.getD (fun _ => !false),
          fun s => s, b⟩ ∧
    macroExpand (⟨init, cond, st, none⟩ : Invocation σ) = none :=
  ⟨rfl, rfl⟩

/-- C5: an omitted condition clause expands to `!false`, which is the
constant-true condition, so the loop behaves identically to one with a
constant-true condition; with a body that never breaks it never
terminates on its own (no amount of fuel makes it stop), and it runs
until the body executes `break`, as in the concrete loop whose body
breaks once the counter reaches 5. -/
theorem claim5_omitted_condition {σ : Type} (init : Option (σ → σ))
    (st : Option (σ → σ)) (b : σ → σ × Flow) (step : σ → σ)
    (body : σ → σ × Flow) (hnb : ∀ s, (body s).2 ≠ Flow.brk) :
    macroExpand (⟨init, none, st, some b⟩ : Invocation σ)
      = macroExpand (⟨init, some (fun _ => true), st, some b⟩ :
          Invocation σ) ∧
    (∀ fuel s, cforWhile (fun _ => !false) step body fuel s = none) ∧
    cforInvoke
      (⟨none, none, none,
        some (fun n : Nat =>
          (n + 1, if n + 1 = 5 then Flow.brk else Flow.normal))⟩ :
        Invocation Nat) 10 0 = some (some 5) := by
  refine ⟨rfl, ?_, by decide⟩
  intro fuel
  induction fuel with
  | zero => intro s; rfl
  | succ n ih =>
    intro s
    rw [cforWhile_advance _ _ _ _ _ rfl (hnb s)]
    exact ih _

/-- C5 witness: `claim5_omitted_condition` at a concrete never-breaking
body, showing in particular non-termination at fuel 7. -/
theorem claim5_witness :
    macroExpand (⟨none, none, none,
        some (fun n : Nat => (n, Flow.normal))⟩ : Invocation Nat)
      = macroExpand (⟨none, some (fun _ => true), none,
          some (fun n : Nat => (n, Flow.normal))⟩ : Invocation Nat) ∧
    cforWhile (fun _ => !false) (fun n : Nat => n + 1)
      (fun n => (n, Flow.normal)) 7 0 = none :=
  have h := claim5_omitted_condition (σ := Nat) none none
    (fun n => (n, Flow.normal)) (fun n => n + 1)
    (fun n => (n, Flow.normal)) (fun _ h => Flow.noConfusion h)
  ⟨h.1, h.2.1 7 0⟩

/-- C9: an invocation whose step clause is present but empty is
accepted by the expander, its step expands to the no-op `()`, and the
resulting loop behaves identically to a plain while loop with the same
condition and body, fuel for fuel. -/
theorem claim9_empty_step_is_while {σ : Type} (init : Option (σ → σ))
    (cond : Option (σ → Bool)) (b : σ → σ × Flow) (c : σ → Bool)
    (body : σ → σ × Flow) :
    (macroExpand (⟨init, cond, none, some b⟩ : Invocation σ)).map
        (fun core => core.step) = some (fun s => s) ∧
    (∀ fuel s, cforWhile c (fun s => s) body fuel s
        = plainWhile c body fuel s) := by
  refine ⟨rfl, ?_⟩
  intro fuel
  induction fuel with
  | zero => intro s; rfl
  | succ n ih =>
    intro s
    by_cases hc : c s = true
    · rcases hf : body s with ⟨s', f⟩
      cases f
      · rw [cforWhile_advance c _ body n s hc (by rw [hf]; intro h; exact Flow.noConfusion h)]
        simp [plainWhile, hc, hf, ih]
      · rw [cforWhile_advance c _ body n s hc (by rw [hf]; intro h; exact Flow.noConfusion h)]
        simp [plainWhile, hc, hf, ih]
      · rw [cforWhile_break c _ body n s hc (by rw [hf])]
        simp [plainWhile, hc, hf]
    · have hc' : c s = false := by
        cases h : c s
        · rfl
        · exact absurd h hc
      rw [cforWhile_cond_false c _ body n s hc']
      simp [plainWhile, hc']

end CFor

namespace CFor

/-- C6: the loop `i = 1; i <= 128; i *= 2 { tick += 1 }` executes the
body exactly 8 times, at `i = 1, 2, 4, ..., 128`, and terminates with
`tick == 8`.  The state is `(i, tick, trace)` where `trace` records the
value of `i` at each body execution. -/
theorem claim6_powers_of_two :
    cforRun (fun p : Nat × Nat × List Nat => (1, p.2))
      (fun p => decide (p.1 ≤ 128))
      (fun p => (p.1 * 2, p.2))
      (fun p => ((p.1, p.2.1 + 1, p.2.2 ++ [p.1]), Flow.normal))
      9 (0, 0, [])
      = some (256, 8, [1, 2, 4, 8, 16, 32, 64, 128]) := by
  decide

/-- Update one variable of an environment of loop variables. -/
def updateEnv {α : Type} (e : String → α) (n : String) (v : α) :
    String → α :=
  fun m => if m = n then v else e m

/-- A comma-separated initialiser clause, as in
`let x = true, let y = x, let z = false`: a sequence of bindings, each
evaluating its right-hand side in the environment produced by the
bindings to its left (sequential, nested-let-like scoping). -/
def runBindings {α : Type} :
    List (String × ((String → α) → α)) → (String → α) → (String → α)
  | [], e => e
  | (n, rhs) :: bs, e => runBindings bs (updateEnv e n (rhs e))

/-- C7: each binding of a comma-separated initialiser clause is
executed once, before the loop, and sees the environment produced by
all the bindings to its left: the last binding of a clause evaluates
its right-hand side in the environment produced by the preceding ones;
the whole clause runs once, before the while loop; and in the concrete
clause `let x = true, let y = x, let z = false` the binding of `y`
sees `x`. -/
theorem claim7_sequential_bindings {α : Type}
    (bs : List (String × ((String → α) → α))) (n : String)
    (rhs : (String → α) → α) (e : String → α) :
    runBindings (bs ++ [(n, rhs)]) e
      = updateEnv (runBindings bs e) n (rhs (runBindings bs e)) ∧
    (∀ (cond : (String → α) → Bool)
       (step : (String → α) → String → α)
       (body : (String → α) → (String → α) × Flow) (fuel : Nat),
        cforRun (runBindings bs) cond step body fuel e
          = cforWhile cond step body fuel (runBindings bs e)) ∧
    (runBindings
        [("x", fun _ => true), ("y", fun e => e "x"),
         ("z", fun _ => false)] (fun _ => false) "x" = true ∧
     runBindings
        [("x", fun _ => true), ("y", fun e => e "x"),
         ("z", fun _ => false)] (fun _ => false) "y" = true ∧
     runBindings
        [("x", fun _ => true), ("y", fun e => e "x"),
         ("z", fun _ => false)] (fun _ => false) "z" = false) := by
  refine ⟨?_, fun _ _ _ _ => rfl, by decide, by decide, by decide⟩
  induction bs generalizing e with
  | nil => rfl
  | cons p bs ih =>
    rcases p with ⟨m, r⟩
    simpa [runBindings] using ih (updateEnv e m (r e))

/-- A comma-separated step clause `e1, e2, ...`: each expression
executed left-to-right, for side effect only. -/
def runSteps {σ : Type} : List (σ → σ) → σ → σ
  | [], s => s
  | f :: fs, s => runSteps fs (f s)

/-- C8: the expressions of a comma-separated step clause execute
left-to-right, each exactly once per non-broken iteration: the head
expression runs first, the last expression runs on the state produced
by all the earlier ones; the loop
`a = 0, b = 0; a + b < 20; a += 1, b += 1 { tick += 1 }` runs exactly
10 iterations; and the loop `; x < 10 && y < 100; x += 1, y += 10 {}`
ends with `x == 10` and `y == 100`. -/
theorem claim8_steps_left_to_right {σ : Type} (f : σ → σ)
    (fs : List (σ → σ)) (s : σ) :
    runSteps (f :: fs) s = runSteps fs (f s) ∧
    runSteps (fs ++ [f]) s = f (runSteps fs s) ∧
    cforRun (fun _ => ((0, 0, 0) : Nat × Nat × Nat))
      (fun p => decide (p.1 + p.2.1 < 20))
      (runSteps [fun p => (p.1 + 1, p.2),
                 fun p => (p.1, p.2.1 + 1, p.2.2)])
      (fun p => ((p.1, p.2.1, p.2.2 + 1), Flow.normal))
      11 (0, 0, 0) = some (10, 10, 10) ∧
    cforRun (fun p => p)
      (fun p : Nat × Nat => decide (p.1 < 10) && decide (p.2 < 100))
      (runSteps [fun p => (p.1 + 1, p.2), fun p => (p.1, p.2 + 10)])
      (fun p => (p, Flow.normal)) 11 (0, 0) = some (10, 100) := by
  refine ⟨rfl, ?_, by decide, by decide⟩
  induction fs generalizing s with
  | nil => rfl
  | cons g fs ih => simpa [runSteps] using ih (g s)

/-- C10: each outer iteration enters the inner single-shot loop with
freshly declared flags `_first = true`, `_continue = false`; the inner
loop executes the body exactly once and exits with `_continue = true`
exactly when the body did not `break`; and the outer iteration
propagates the `break` (skipping the step) precisely when `_continue`
is still false. -/
theorem claim10_inner_loop_flags {σ : Type} (body : σ → σ × Flow)
    (cond : σ → Bool) (step : σ → σ) (fuel : Nat) (s : σ)
    (hc : cond s = true) :
    innerLoop body 2 true false s
      = some ((body s).1, decide ((body s).2 ≠ Flow.brk)) ∧
    cforWhile cond step body (fuel + 1) s
      = (if !(decide ((body s).2 ≠ Flow.brk)) then some (body s).1
         else cforWhile cond step body fuel (step (body s).1)) := by
  refine ⟨innerLoop_spec body s, ?_⟩
  simp [cforWhile, hc, innerLoop_spec]

/-- C10 witness: `claim10_inner_loop_flags` at a concrete iteration
with a normally-exiting body. -/
theorem claim10_witness :
    innerLoop (fun n : Nat => (n + 1, Flow.normal)) 2 true false 0
      = some (1, true) ∧
    cforWhile (fun _ : Nat => true) (fun n : Nat => n)
      (fun n => (n + 1, Flow.normal)) 3 0
      = (if !(true : Bool) then some 1
         else cforWhile (fun _ : Nat => true) (fun n : Nat => n)
           (fun n => (n + 1, Flow.normal)) 2 1) :=
  claim10_inner_loop_flags (fun n : Nat => (n + 1, Flow.normal))
    (fun _ => true) (fun n => n) 2 0 rfl

end CFor
